import Mathlib

/-!
Shallow embedding of the `conmgr` repository (a personal contact book):
`src/conmgr/contact.py`, `src/conmgr/contact_mgr.py` and
`src/conmgr/exceptions.py`, together with theorems settling the frozen
claims about the specification.

Conventions of the embedding:
* Python strings are Lean `String`s; `re.match` on the two literal patterns
  of `contact.py` is expanded into an explicit character scan (`reMatchEmail`
  models `.*@.*\..*`, where `.` matches any character except a newline, and
  `phoneMatch` models `\d{9}`; `\d` is modelled as the decimal digits
  `0`-`9`).
* Python `set` becomes `Finset String`; `set.add` is `insert`, `set.remove`
  is a guarded `Finset.erase` that raises `KeyError` when the element is
  absent, exactly as in Python.
* Exceptions become explicit error values (`ConErr`): functions that can
  raise return `Except ConErr _`, and the mutating `ContactManager` methods
  return the final state paired with `Option ConErr` (a raised exception in
  CPython leaves all mutations made before the raise in place, so the state
  at the raise point is returned).
* `copy.deepcopy` of a list of contacts is the identity here: contacts are
  immutable values in the embedding.
* The file system is an oracle (`FS`) giving the results of
  `Path.exists`, `Path.is_file` and `Path.is_dir`; `json.load`'s result is
  passed in as an already-parsed `SnapJson` value, with `Option` fields
  standing for possibly missing top-level keys.
* `pathlib` is modelled by plain string operations `pathJoin`, `pathParent`
  and `pathSuffix` covering the shapes of path the program builds
  (no full path normalisation).
-/

/-- Python truthiness of an optional string argument: `None` and `""` are
falsy, every other string is truthy. -/
def truthy : Option String → Bool
  | none => false
  | some s => s ≠ ""

/-- `re.match(r".*@.*\..*", s)` from `Contact.__init__`: a prefix of `s`
matches, i.e. some `'@'` is followed (later) by some `'.'`, with no newline
before that `'.'` (Python `.` does not match a newline). The scan walks the
characters once, remembering whether an `'@'` has been seen. -/
def reMatchEmailAux : List Char → Bool → Bool
  | [], _ => false
  | c :: rest, seenAt =>
    if c = '\n' then false
    else if seenAt ∧ c = '.' then true
    else reMatchEmailAux rest (seenAt ∨ c = '@')

/-- Email validity check of `Contact.__init__`. -/
def reMatchEmail (s : String) : Bool :=
  reMatchEmailAux s.data false

/-- `re.match(r"\d{9}", s)` from `Contact.__init__`: the string has at least
nine characters and its first nine characters are decimal digits. -/
def phoneMatch (s : String) : Bool :=
  decide (9 ≤ s.length) && (s.data.take 9).all Char.isDigit

/-- The `Contact` record of `contact.py`: five fields, `address` optional.
The type itself is the raw record; validation lives in `Contact.init`
(Python's `Contact.__init__`), the only constructor used by the manager. -/
structure Contact where
  first_name : String
  last_name : String
  email : String
  phone : String
  address : Option String
deriving DecidableEq

/-- The error values of the embedding.  `valueError` is Python's
`ValueError`, `keyError` a `set.remove`/`dict` `KeyError`, `stopIteration`
the `StopIteration` of an exhausted `next`, `typeError` a `TypeError`;
`duplicatePhone`/`duplicateEmail` are the exception classes of
`exceptions.py` (each stores only its message string). -/
inductive ConErr where
  | valueError (msg : String)
  | keyError (key : String)
  | stopIteration
  | typeError (msg : String)
  | duplicatePhone (msg : String)
  | duplicateEmail (msg : String)
deriving DecidableEq

/-- `DuplicatePhoneError(con)` of `exceptions.py`. -/
def DuplicatePhoneError (con : Contact) : ConErr :=
  .duplicatePhone ("Phone " ++ con.phone ++ " already exists.")

/-- `DuplicateEmailError(con)` of `exceptions.py`. -/
def DuplicateEmailError (con : Contact) : ConErr :=
  .duplicateEmail ("Email " ++ con.email ++ " already exists.")

/-- `Contact.__init__`: validates email then phone against the two regular
expressions and stores the five fields unchanged. -/
def Contact.init (first last email phone : String)
    (addr : Option String := none) : Except ConErr Contact :=
  if reMatchEmail email = false then
    .error (.valueError ("Email " ++ email ++ " is invalid."))
  else if phoneMatch phone = false then
    .error (.valueError ("Phone " ++ phone ++ " is invalid."))
  else
    .ok ⟨first, last, email, phone, addr⟩

/-- `Contact.__eq__`: equal iff same phone or same email. -/
def ceq (a b : Contact) : Bool :=
  a.phone == b.phone || a.email == b.email

/-- A Python dictionary with string keys and string-or-`None` values, as an
association list (`Contact.from_dict`'s input and `Contact.to_dict`'s
output). -/
abbrev CDict : Type := List (String × Option String)

/-- `ATTR_SET` of `contact.py`: the five recognised attribute names. -/
def ATTR_SET : Finset String :=
  {"first_name", "last_name", "email", "phone", "address"}

/-- `Contact.to_dict`: the five fields under their attribute names. -/
def Contact.to_dict (c : Contact) : CDict :=
  [("first_name", some c.first_name),
   ("last_name", some c.last_name),
   ("email", some c.email),
   ("phone", some c.phone),
   ("address", c.address)]

/-- `Contact.from_dict`: rejects any key set other than exactly the five
attribute names (`ValueError`), then delegates to `Contact.init`.  A `None`
value under a required string field is outside the typed model: Python
would store `None` for a name field and raise `TypeError` inside `re.match`
for `email`/`phone`; both are folded into `typeError` here (no claim
touches that path, and `to_dict` never produces it for the four required
fields). -/
def Contact.from_dict (d : CDict) : Except ConErr Contact :=
  if (List.map Prod.fst d).toFinset ≠ ATTR_SET then
    .error (.valueError "Bad argument names passed to the constructor.")
  else
    match List.lookup "first_name" d, List.lookup "last_name" d,
        List.lookup "email" d, List.lookup "phone" d,
        List.lookup "address" d with
    | some (some f), some (some l), some (some e), some (some p), some a =>
        Contact.init f l e p a
    | _, _, _, _, _ => .error (.typeError "expected str")

/-- The file-system oracle consumed by the manager: the results of
`pathlib.Path.exists`, `Path.is_file` and `Path.is_dir` on path strings. -/
structure FS where
  pexists : String → Bool
  isFile : String → Bool
  isDir : String → Bool

/-- `str(pathlib.Path(d) / f)` for the joins the program performs (`f` is
always the bare file name `"contacts.json"`): `Path("")` and `Path(".")`
are the current directory and contribute nothing, a trailing slash of `d`
is not doubled. -/
def pathJoin (d f : String) : String :=
  if d = "" ∨ d = "." then f
  else if d.data.getLast? = some '/' then d ++ f
  else d ++ "/" ++ f

/-- `str(pathlib.Path(s).parent)`: the string up to the last `/` (the root
`/` is kept; with no `/` at all the parent is `.`). -/
def pathParent (s : String) : String :=
  match s.data.reverse.dropWhile (fun c => c ≠ '/') with
  | [] => "."
  | ['/'] => "/"
  | '/' :: rest => String.mk rest.reverse
  | _ :: _ => "."

/-- `pathlib.Path(s).suffix`: the extension of the last path component,
empty when the component has no dot or only a leading one. -/
def pathSuffix (s : String) : String :=
  let nameRev := s.data.reverse.takeWhile (fun c => c ≠ '/')
  let revTail := nameRev.takeWhile (fun c => c ≠ '.')
  if revTail.length + 1 < nameRev.length then String.mk ('.' :: revTail.reverse)
  else ""

/-- The `ContactManager` state of `contact_mgr.py`: the contact list, the
full path of the snapshot file, and the two index sets `_phone_set` and
`_email_set`. -/
structure ContactManager where
  contacts : List Contact
  store_path : String
  phone_set : Finset String
  email_set : Finset String
deriving DecidableEq

/-- `ContactManager.__init__`: deep-copies the contact list (the identity on
immutable values), records `store_path / "contacts.json"`, builds the two
index sets, then rejects duplicate phones, duplicate emails, a missing
store directory and a non-directory store path, in that order. -/
def ContactManager.init (fs : FS) (contacts : List Contact)
    (store_path : String) : Except ConErr ContactManager :=
  let ps := (contacts.map (fun x => x.phone)).toFinset
  let es := (contacts.map (fun x => x.email)).toFinset
  if contacts.length ≠ ps.card then
    .error (.valueError "Duplicate phone numbers in contacts list.")
  else if contacts.length ≠ es.card then
    .error (.valueError "Duplicate emails in contacts list.")
  else if fs.pexists store_path = false then
    .error (.valueError ("Path does not exist: '" ++ store_path ++ "'"))
  else if fs.isDir store_path = false then
    .error (.valueError "Path does not point to a directory.")
  else
    .ok ⟨contacts, pathJoin store_path "contacts.json", ps, es⟩

/-- `ContactManager.add_contact`: duplicate phone first, then duplicate
email, then append and index.  The state is returned together with the
raised exception, if any (nothing is mutated before a raise). -/
def ContactManager.add_contact (m : ContactManager) (new : Contact) :
    ContactManager × Option ConErr :=
  if new.phone ∈ m.phone_set then (m, some (DuplicatePhoneError new))
  else if new.email ∈ m.email_set then (m, some (DuplicateEmailError new))
  else
    ({ m with contacts := m.contacts ++ [new],
              phone_set := insert new.phone m.phone_set,
              email_set := insert new.email m.email_set }, none)

/-- `ContactManager.find_contact`: raises `ValueError` when both arguments
are falsy (absent or empty), dispatches on `phone is not None` (so an empty
phone string with a truthy email still takes the phone branch), and serves
the lookup through the index set followed by a linear scan
(`__find_contact_phone` / `__find_contact_email`, whose exhausted `next`
would raise `StopIteration`).  Python's `None in set_of_strings` is false,
so the unreachable no-argument email branch returns `None`. -/
def ContactManager.find_contact (m : ContactManager)
    (phone email : Option String) : Except ConErr (Option Contact) :=
  if truthy phone = false ∧ truthy email = false then
    .error (.valueError "Provide at least a phone number or an email.")
  else
    match phone with
    | some p =>
        if p ∈ m.phone_set then
          match m.contacts.find? (fun x => x.phone == p) with
          | some c => .ok (some c)
          | none => .error .stopIteration
        else .ok none
    | none =>
        match email with
        | some e =>
            if e ∈ m.email_set then
              match m.contacts.find? (fun x => x.email == e) with
              | some c => .ok (some c)
              | none => .error .stopIteration
            else .ok none
        | none => .ok none

/-- `ContactManager.__remove_contact`: discards the contact's phone and
email from the index sets (`set.remove`, raising `KeyError` when absent)
and removes the first `__eq__`-equal element from the list (`list.remove`,
raising `ValueError` when no element matches). -/
def ContactManager.removeContactPriv (m : ContactManager) (con : Contact) :
    ContactManager × Option ConErr :=
  if con.phone ∈ m.phone_set then
    let m1 := { m with phone_set := m.phone_set.erase con.phone }
    if con.email ∈ m1.email_set then
      let m2 := { m1 with email_set := m1.email_set.erase con.email }
      if m2.contacts.any (fun x => ceq x con) then
        ({ m2 with contacts := m2.contacts.eraseP (fun x => ceq x con) }, none)
      else (m2, some (.valueError "list.remove(x): x not in list"))
    else (m1, some (.keyError con.email))
  else (m, some (.keyError con.phone))

/-- `ContactManager.remove_contact`: raises `ValueError` when both
arguments are falsy; with a non-`None` phone it looks up by phone and
removes on a hit; otherwise (phone absent, or phone supplied but not
found) it falls through to an email lookup — calling `find_contact` with
only the `email` argument, which re-raises the missing-selector
`ValueError` when `email` is falsy. -/
def ContactManager.remove_contact (m : ContactManager)
    (phone email : Option String) : ContactManager × Option ConErr :=
  if truthy phone = false ∧ truthy email = false then
    (m, some (.valueError "Provide at least a phone number or an email."))
  else
    match phone with
    | some p =>
        match m.find_contact (some p) none with
        | .error e => (m, some e)
        | .ok (some c) => m.removeContactPriv c
        | .ok none =>
            match m.find_contact none email with
            | .error e => (m, some e)
            | .ok (some c) => m.removeContactPriv c
            | .ok none => (m, none)
    | none =>
        match m.find_contact none email with
        | .error e => (m, some e)
        | .ok (some c) => m.removeContactPriv c
        | .ok none => (m, none)

/-- One `case` arm of the `match` in `ContactManager.edit_contact`, applied
to the contact at position `idx` of the list (Python mutates the object
`find_contact` returned, which sits at that fixed position).  The string
comparison chain mirrors Python's sequential `match`/`case` on literals.
`email`/`phone` update the index set first (`set.remove`, then `set.add`)
and then the field; an unrecognised attribute only produces the printed
warning text. -/
def ContactManager.editStep (m : ContactManager) (idx : Nat) (a v : String) :
    ContactManager × Option String × Option ConErr :=
  match m.contacts[idx]? with
  | none => (m, none, some .stopIteration)
  | some c =>
    if a = "first_name" then
      ({ m with contacts := m.contacts.set idx { c with first_name := v } }, none, none)
    else if a = "last_name" then
      ({ m with contacts := m.contacts.set idx { c with last_name := v } }, none, none)
    else if a = "email" then
      if c.email ∈ m.email_set then
        ({ m with email_set := insert v (m.email_set.erase c.email),
                  contacts := m.contacts.set idx { c with email := v } }, none, none)
      else (m, none, some (.keyError c.email))
    else if a = "phone" then
      if c.phone ∈ m.phone_set then
        ({ m with phone_set := insert v (m.phone_set.erase c.phone),
                  contacts := m.contacts.set idx { c with phone := v } }, none, none)
      else (m, none, some (.keyError c.phone))
    else if a = "address" then
      ({ m with contacts := m.contacts.set idx { c with address := some v } }, none, none)
    else
      (m, some ("Invalid attribute '" ++ a ++ "'"), none)

/-- The `for a, v in updates.items()` loop of `edit_contact`: applies each
update in order, collecting warnings, and stops at the state reached so far
if a step raises. -/
def ContactManager.editLoop (m : ContactManager) (idx : Nat) :
    List (String × String) → ContactManager × List String × Option ConErr
  | [] => (m, [], none)
  | (a, v) :: rest =>
    match m.editStep idx a v with
    | (m1, w, none) =>
        match m1.editLoop idx rest with
        | (m2, ws, err) => (m2, w.toList ++ ws, err)
    | (m1, w, some e) => (m1, w.toList, some e)

/-- `ContactManager.edit_contact`: finds the contact by `phone_id` through
`find_contact` (whose missing-selector `ValueError` propagates when
`phone_id` is empty), raises `ValueError` when no contact has that phone,
and otherwise runs the update loop on the found contact's position.
Returns the final state, the printed warnings, and the raised exception if
any.  `updates` is a Python `**kwargs` dictionary, so its keys are distinct
in every actual call. -/
def ContactManager.edit_contact (m : ContactManager) (phone_id : String)
    (updates : List (String × String)) :
    ContactManager × List String × Option ConErr :=
  match m.find_contact (some phone_id) none with
  | .error e => (m, [], some e)
  | .ok none => (m, [], some (.valueError "Invalid phone identifier."))
  | .ok (some _) =>
      m.editLoop (m.contacts.findIdx (fun x => x.phone == phone_id)) updates

/-- The parsed top-level JSON object of a snapshot file: `json.load`'s
result with the two recognised keys, `none` standing for a missing key. -/
structure SnapJson where
  contacts : Option (List CDict)
  store_path : Option String
deriving DecidableEq

/-- `ContactManager.to_json`: the dictionary `{"contacts": [...],
"store_path": str(self.store_path)}`. -/
def ContactManager.to_json (m : ContactManager) : SnapJson :=
  ⟨some (m.contacts.map Contact.to_dict), some m.store_path⟩

/-- `ContactManager.to_file`: writes `to_json()` at the path stored under
its `"store_path"` key; modelled as the written (path, content) pair. -/
def ContactManager.to_file (m : ContactManager) : String × SnapJson :=
  (m.store_path, m.to_json)

/-- `ContactManager.from_file`: path existence, regular-file and `.json`
extension checks, then the two top-level key checks, then decoding of every
contact dictionary (the list comprehension stops at the first failing
`Contact.from_dict`), and finally `ContactManager.__init__` on the decoded
contacts and the parent directory of the stored `store_path` value. -/
def ContactManager.from_file (fs : FS) (path : String) (content : SnapJson) :
    Except ConErr ContactManager :=
  if fs.pexists path = false then
    .error (.valueError ("Path " ++ path ++ " does not exists."))
  else if fs.isFile path = false then
    .error (.valueError ("Path " ++ path ++ " does not point to a file."))
  else if pathSuffix path ≠ ".json" then
    .error (.valueError ("Path " ++ path ++ " does not point to a JSON file."))
  else
    match content.contacts with
    | none => .error (.valueError "No contacts in the JSON file.")
    | some ds =>
        match content.store_path with
        | none => .error (.valueError "No store_path in the JSON file.")
        | some sp => do
            let cons ← ds.mapM Contact.from_dict
            ContactManager.init fs cons (pathParent sp)

/-- The indexing invariant of the specification: each index set is exactly
the set of the stored contacts' phones (resp. emails), and no two stored
contacts share a phone or an email. -/
def MgrInv (m : ContactManager) : Prop :=
  (m.contacts.map (fun x => x.phone)).toFinset = m.phone_set ∧
  (m.contacts.map (fun x => x.email)).toFinset = m.email_set ∧
  (m.contacts.map (fun x => x.phone)).Nodup ∧
  (m.contacts.map (fun x => x.email)).Nodup

/-- The two index-set equalities alone (the part of `Inv` that
`edit_contact` preserves unconditionally). -/
def MgrSetsEq (m : ContactManager) : Prop :=
  (m.contacts.map (fun x => x.phone)).toFinset = m.phone_set ∧
  (m.contacts.map (fun x => x.email)).toFinset = m.email_set

instance : DecidablePred MgrInv := fun m => by unfold MgrInv; infer_instance

instance : DecidablePred MgrSetsEq := fun m => by unfold MgrSetsEq; infer_instance

deriving instance DecidableEq for Except

/-- A contact is valid when both constructor pattern checks accept it
(every object Python's `Contact.__init__` ever returns satisfies this). -/
def ValidContact (c : Contact) : Prop :=
  reMatchEmail c.email = true ∧ phoneMatch c.phone = true

instance : DecidablePred ValidContact := fun c => by
  unfold ValidContact; infer_instance

/-- A file-system oracle on which every path exists, is a file and is a
directory: used to instantiate theorems on concrete managers. -/
def allFS : FS := ⟨fun _ => true, fun _ => true, fun _ => true⟩

/-- Concrete contact fixture (the `jake` record of the spec's scenario). -/
def jake : Contact := ⟨"jake", "smith", "jake@x.com", "111111111", none⟩

/-- Concrete contact fixture (the `ann` record of the spec's scenario). -/
def ann : Contact := ⟨"ann", "lee", "ann@y.com", "222222222", none⟩

/-- The manager `ContactManager([jake, ann], "store")` builds. -/
def mJA : ContactManager :=
  ⟨[jake, ann], "store/contacts.json",
   (["111111111", "222222222"] : List String).toFinset,
   (["jake@x.com", "ann@y.com"] : List String).toFinset⟩

theorem toFinset_card_eq_length_iff {α : Type} [DecidableEq α]
    (l : List α) : l.toFinset.card = l.length ↔ l.Nodup := by
  constructor
  · intro h
    have hd : l.dedup.length = l.length := by
      rw [← List.card_toFinset]; exact h
    have he : l.dedup = l := (List.dedup_sublist l).eq_of_length hd
    rw [← he]; exact List.nodup_dedup l
  · exact List.toFinset_card_of_nodup

/-- C3: Contact construction succeeds exactly on a pattern-matching email
and a nine-digit-prefix phone, returning the five fields unchanged, and
otherwise fails with the validation `ValueError` (email reported first). -/
theorem claim_C3_contact_validation (first last email phone : String)
    (addr : Option String) :
    (reMatchEmail email = true → phoneMatch phone = true →
      Contact.init first last email phone addr =
        .ok ⟨first, last, email, phone, addr⟩) ∧
    (reMatchEmail email = false →
      Contact.init first last email phone addr =
        .error (.valueError ("Email " ++ email ++ " is invalid."))) ∧
    (reMatchEmail email = true → phoneMatch phone = false →
      Contact.init first last email phone addr =
        .error (.valueError ("Phone " ++ phone ++ " is invalid."))) := by
  refine ⟨fun h1 h2 => ?_, fun h1 => ?_, fun h1 h2 => ?_⟩
  · simp [Contact.init, h1, h2]
  · simp [Contact.init, h1]
  · simp [Contact.init, h1, h2]

/-- Witness for C3: the validation theorem applied at a valid and an
invalid concrete input. -/
theorem claim_C3_witness :
    Contact.init "jake" "smith" "jake@x.com" "111111111" none =
      .ok ⟨"jake", "smith", "jake@x.com", "111111111", none⟩ ∧
    Contact.init "a" "b" "nodomain" "111111111" none =
      .error (.valueError ("Email " ++ "nodomain" ++ " is invalid.")) :=
  ⟨(claim_C3_contact_validation "jake" "smith" "jake@x.com" "111111111"
      none).1 (by decide) (by decide),
   (claim_C3_contact_validation "a" "b" "nodomain" "111111111" none).2.1
      (by decide)⟩

/-- C4: `add_contact` fails with `DuplicatePhoneError` whenever the phone
is already indexed (even when the email also collides — phone is checked
first), with `DuplicateEmailError` when only the email is indexed, and
otherwise appends the contact and inserts its phone and email into the
index sets. -/
theorem claim_C4_add_contact (m : ContactManager) (c : Contact) :
    (c.phone ∈ m.phone_set →
      m.add_contact c = (m, some (DuplicatePhoneError c))) ∧
    (c.phone ∉ m.phone_set → c.email ∈ m.email_set →
      m.add_contact c = (m, some (DuplicateEmailError c))) ∧
    (c.phone ∉ m.phone_set → c.email ∉ m.email_set →
      m.add_contact c =
        ({ m with contacts := m.contacts ++ [c],
                  phone_set := insert c.phone m.phone_set,
                  email_set := insert c.email m.email_set }, none)) := by
  refine ⟨fun h1 => ?_, fun h1 h2 => ?_, fun h1 h2 => ?_⟩
  · simp [ContactManager.add_contact, h1]
  · simp [ContactManager.add_contact, h1, h2]
  · simp [ContactManager.add_contact, h1, h2]

/-- Witness for C4: the `add_contact` theorem at concrete inputs — a
double collision reports the phone, a fresh contact is appended and
indexed. -/
theorem claim_C4_witness :
    mJA.add_contact ⟨"x", "y", "ann@y.com", "111111111", none⟩ =
      (mJA, some (DuplicatePhoneError ⟨"x", "y", "ann@y.com", "111111111", none⟩)) ∧
    mJA.add_contact ⟨"mike", "w", "mike@m.com", "333333333", none⟩ =
      ({ mJA with contacts := mJA.contacts ++ [⟨"mike", "w", "mike@m.com", "333333333", none⟩],
                  phone_set := insert "333333333" mJA.phone_set,
                  email_set := insert "mike@m.com" mJA.email_set }, none) :=
  ⟨(claim_C4_add_contact mJA ⟨"x", "y", "ann@y.com", "111111111", none⟩).1
      (by decide),
   (claim_C4_add_contact mJA ⟨"mike", "w", "mike@m.com", "333333333", none⟩).2.2
      (by decide) (by decide)⟩

/-- C7: contact equality holds exactly when the phones or the emails
agree; it is reflexive and symmetric but not transitive — witnessed by
three contacts with phones `P, P, Q` and emails `E1, E2, E2` where
`P ≠ Q` and `E1 ≠ E2`. -/
theorem claim_C7_equality :
    (∀ a b : Contact, ceq a b = (a.phone == b.phone || a.email == b.email)) ∧
    (∀ a : Contact, ceq a a = true) ∧
    (∀ a b : Contact, ceq a b = ceq b a) ∧
    (ceq ⟨"c1", "c1", "e1@x.com", "111111111", none⟩
         ⟨"c2", "c2", "e2@x.com", "111111111", none⟩ = true ∧
     ceq ⟨"c2", "c2", "e2@x.com", "111111111", none⟩
         ⟨"c3", "c3", "e2@x.com", "999999999", none⟩ = true ∧
     ceq ⟨"c1", "c1", "e1@x.com", "111111111", none⟩
         ⟨"c3", "c3", "e2@x.com", "999999999", none⟩ = false) := by
  refine ⟨fun a b => rfl, fun a => by simp [ceq], fun a b => ?_, by decide⟩
  rw [Bool.eq_iff_iff]
  simp only [ceq, Bool.or_eq_true, beq_iff_eq]
  constructor
  · rintro (h | h)
    exacts [Or.inl h.symm, Or.inr h.symm]
  · rintro (h | h)
    exacts [Or.inl h.symm, Or.inr h.symm]

/-- C9: `add_contact` is atomic on failure — when it raises a duplicate
error, the contact list and both index sets are exactly as before the
call (the duplicate checks precede every mutation). -/
theorem claim_C9_add_atomic (m : ContactManager) (c : Contact) (e : ConErr)
    (h : (m.add_contact c).2 = some e) : (m.add_contact c).1 = m := by
  unfold ContactManager.add_contact at h ⊢
  split_ifs at h ⊢ <;> simp_all

/-- Witness for C9: a duplicate-phone `add_contact` on a concrete manager
raises and leaves the state unchanged. -/
theorem claim_C9_witness :
    (mJA.add_contact jake).2 = some (DuplicatePhoneError jake) ∧
    (mJA.add_contact jake).1 = mJA :=
  ⟨by decide, claim_C9_add_atomic mJA jake (DuplicatePhoneError jake) (by decide)⟩

/-- C8: an empty phone string with no email is treated as a missing
selector by both `find_contact` and `remove_contact` (argument presence is
tested by string truthiness), while an empty phone string with a non-empty
email still dispatches to the phone branch (dispatch tests `is not None`)
and returns `None` without consulting the email. -/
theorem claim_C8_empty_phone_truthiness (m : ContactManager) :
    (m.find_contact (some "") none =
      .error (.valueError "Provide at least a phone number or an email.")) ∧
    (m.remove_contact (some "") none =
      (m, some (.valueError "Provide at least a phone number or an email."))) ∧
    (∀ e : String, e ≠ "" → "" ∉ m.phone_set →
      m.find_contact (some "") (some e) = .ok none) := by
  refine ⟨?_, ?_, fun e he hm => ?_⟩
  · simp [ContactManager.find_contact, truthy]
  · simp [ContactManager.remove_contact, truthy]
  · simp [ContactManager.find_contact, truthy, he, hm]

/-- Witness for C8: the truthiness theorem at a concrete manager — a
stored email is ignored when an empty phone is supplied. -/
theorem claim_C8_witness :
    mJA.find_contact (some "") (some "ann@y.com") = .ok none ∧
    mJA.find_contact (some "") none =
      .error (.valueError "Provide at least a phone number or an email.") :=
  ⟨(claim_C8_empty_phone_truthiness mJA).2.2 "ann@y.com" (by decide) (by decide),
   (claim_C8_empty_phone_truthiness mJA).1⟩

/-- C10: `ContactManager.__init__` checks list uniqueness before the store
directory, so a duplicate phone (or, with unique phones, a duplicate
email) is reported whatever the directory looks like, and the
missing-directory error is only reachable once both uniqueness checks
pass. -/
theorem claim_C10_init_validation_order (fs : FS) (cs : List Contact)
    (d : String) :
    (¬ (cs.map (fun x => x.phone)).Nodup →
      ContactManager.init fs cs d =
        .error (.valueError "Duplicate phone numbers in contacts list.")) ∧
    ((cs.map (fun x => x.phone)).Nodup → ¬ (cs.map (fun x => x.email)).Nodup →
      ContactManager.init fs cs d =
        .error (.valueError "Duplicate emails in contacts list.")) ∧
    ((cs.map (fun x => x.phone)).Nodup → (cs.map (fun x => x.email)).Nodup →
      fs.pexists d = false →
      ContactManager.init fs cs d =
        .error (.valueError ("Path does not exist: '" ++ d ++ "'"))) := by
  have hlen : ∀ f : Contact → String, (cs.map f).length = cs.length :=
    fun f => cs.length_map f
  refine ⟨fun h1 => ?_, fun h1 h2 => ?_, fun h1 h2 h3 => ?_⟩
  · have hp : cs.length ≠ (cs.map (fun x => x.phone)).toFinset.card := by
      rw [← hlen (fun x => x.phone)]
      intro h
      exact h1 ((toFinset_card_eq_length_iff (cs.map (fun x => x.phone))).mp h.symm)
    simp only [ContactManager.init]
    rw [if_pos hp]
  · have hp : cs.length = (cs.map (fun x => x.phone)).toFinset.card := by
      rw [← hlen (fun x => x.phone)]
      exact ((toFinset_card_eq_length_iff (cs.map (fun x => x.phone))).mpr h1).symm
    have he : cs.length ≠ (cs.map (fun x => x.email)).toFinset.card := by
      rw [← hlen (fun x => x.email)]
      intro h
      exact h2 ((toFinset_card_eq_length_iff (cs.map (fun x => x.email))).mp h.symm)
    simp only [ContactManager.init]
    rw [if_neg (not_not_intro hp), if_pos he]
  · have hp : cs.length = (cs.map (fun x => x.phone)).toFinset.card := by
      rw [← hlen (fun x => x.phone)]
      exact ((toFinset_card_eq_length_iff (cs.map (fun x => x.phone))).mpr h1).symm
    have he : cs.length = (cs.map (fun x => x.email)).toFinset.card := by
      rw [← hlen (fun x => x.email)]
      exact ((toFinset_card_eq_length_iff (cs.map (fun x => x.email))).mpr h2).symm
    simp only [ContactManager.init]
    rw [if_neg (not_not_intro hp), if_neg (not_not_intro he), if_pos h3]

/-- A file-system oracle on which nothing exists: the store directory of
the validation-order witness is missing. -/
def noFS : FS := ⟨fun _ => false, fun _ => false, fun _ => false⟩

/-- Witness for C10: constructing with a duplicated phone and a
non-existent directory reports the duplicate phones, not the missing
directory. -/
theorem claim_C10_witness :
    ContactManager.init noFS [jake, { ann with phone := "111111111" }] "/missing" =
      .error (.valueError "Duplicate phone numbers in contacts list.") :=
  (claim_C10_init_validation_order noFS
    [jake, { ann with phone := "111111111" }] "/missing").1 (by decide)

/-- C1 (code bug): removing by a phone that is not in the index, with no
email supplied, is not the silent no-op the claim states — the
fall-through in `remove_contact` calls `find_contact(email=None)`, which
raises the missing-selector `ValueError` (the state is nevertheless
unchanged); removal by an absent email alone is a silent no-op, as the
claim says. -/
theorem claim_C1_remove_by_missing_phone_raises :
    ContactManager.init allFS [jake, ann] "store" = .ok mJA ∧
    mJA.remove_contact (some "555555555") none =
      (mJA, some (.valueError "Provide at least a phone number or an email.")) ∧
    mJA.remove_contact none (some "zz@q.r") = (mJA, none) := by
  refine ⟨by decide, by decide, by decide⟩

theorem from_dict_to_dict (c : Contact) (h : ValidContact c) :
    Contact.from_dict (Contact.to_dict c) = .ok c := by
  obtain ⟨h1, h2⟩ := h
  show Contact.init c.first_name c.last_name c.email c.phone c.address = .ok c
  simp only [Contact.init]
  rw [if_neg (by simp [h1]), if_neg (by simp [h2])]

/-- C6: decoding the encoded mapping of any valid contact succeeds and
returns a contact identical in all five fields — hence also equal under
the phone-or-email equality contract. -/
theorem claim_C6_dict_roundtrip (c : Contact) (h : ValidContact c) :
    Contact.from_dict (Contact.to_dict c) = .ok c ∧ ceq c c = true :=
  ⟨from_dict_to_dict c h, by simp [ceq]⟩

/-- Witness for C6: the mapping round-trip theorem at a concrete
contact. -/
theorem claim_C6_witness :
    Contact.from_dict (Contact.to_dict jake) = .ok jake ∧ ceq jake jake = true :=
  claim_C6_dict_roundtrip jake ⟨by decide, by decide⟩

theorem list_set_self {α : Type} (l : List α) (i : Nat) (h : i < l.length) :
    l.set i l[i] = l := by
  induction l generalizing i with
  | nil => simp at h
  | cons x xs ih =>
      cases i with
      | zero => rfl
      | succ j =>
          simp only [List.set, List.getElem_cons_succ]
          rw [ih j (by simpa using h)]

theorem map_set_unchanged (l : List Contact) (i : Nat) (cNew : Contact)
    (f : Contact → String) (h : i < l.length) (hf : f cNew = f l[i]) :
    (l.set i cNew).map f = l.map f := by
  have hlen : i < (l.map f).length := by simpa using h
  rw [List.map_set, hf]
  have hg : f l[i] = (l.map f)[i] := (List.getElem_map f).symm
  rw [hg, list_set_self (l.map f) i hlen]

theorem toFinset_set_of_nodup {α : Type} [DecidableEq α] (xs : List α)
    (i : Nat) (v : α) (hnd : xs.Nodup) (hi : i < xs.length) :
    (xs.set i v).toFinset = insert v (xs.toFinset.erase xs[i]) := by
  induction xs generalizing i with
  | nil => simp at hi
  | cons x l ih =>
      obtain ⟨hx, hl⟩ := List.nodup_cons.mp hnd
      cases i with
      | zero =>
          simp only [List.set, List.getElem_cons_zero, List.toFinset_cons]
          rw [Finset.erase_insert (by simpa using hx)]
      | succ j =>
          have hj : j < l.length := by simpa using hi
          simp only [List.set, List.getElem_cons_succ, List.toFinset_cons]
          rw [ih j hl hj]
          have hne : x ≠ l[j] := fun he => hx (he ▸ l.getElem_mem hj)
          rw [Finset.erase_insert_of_ne hne, Finset.Insert.comm]

theorem ceq_refl (c : Contact) : ceq c c = true := by simp [ceq]

theorem ceq_false_iff (a b : Contact) :
    ceq a b = false ↔ a.phone ≠ b.phone ∧ a.email ≠ b.email := by
  simp [ceq, not_or]

theorem eraseP_ceq_spec (l : List Contact) (con : Contact) (hcon : con ∈ l)
    (hp : (l.map (fun x => x.phone)).Nodup)
    (he : (l.map (fun x => x.email)).Nodup) :
    ((l.eraseP (fun x => ceq x con)).map (fun x => x.phone)).toFinset
        = ((l.map (fun x => x.phone)).toFinset).erase con.phone ∧
    ((l.eraseP (fun x => ceq x con)).map (fun x => x.email)).toFinset
        = ((l.map (fun x => x.email)).toFinset).erase con.email ∧
    ((l.eraseP (fun x => ceq x con)).map (fun x => x.phone)).Nodup ∧
    ((l.eraseP (fun x => ceq x con)).map (fun x => x.email)).Nodup := by
  induction l with
  | nil => cases hcon
  | cons x xs ih =>
      simp only [List.map_cons, List.nodup_cons] at hp he
      obtain ⟨hpx, hpxs⟩ := hp
      obtain ⟨hex, hexs⟩ := he
      by_cases hx : ceq x con = true
      · have hor : x.phone = con.phone ∨ x.email = con.email := by
          simpa [ceq] using hx
        have hxcon : con = x := by
          rcases List.mem_cons.mp hcon with h | h
          · exact h
          · exfalso
            rcases hor with hc | hc
            · exact hpx (by rw [hc]; exact List.mem_map_of_mem (fun y => y.phone) h)
            · exact hex (by rw [hc]; exact List.mem_map_of_mem (fun y => y.email) h)
        subst hxcon
        rw [List.eraseP_cons_of_pos (p := fun y => ceq y con) hx]
        refine ⟨?_, ?_, hpxs, hexs⟩
        · simp only [List.map_cons, List.toFinset_cons]
          rw [Finset.erase_insert (by simpa using hpx)]
        · simp only [List.map_cons, List.toFinset_cons]
          rw [Finset.erase_insert (by simpa using hex)]
      · obtain ⟨hpne, hene⟩ :=
          (ceq_false_iff x con).mp (Bool.not_eq_true _ |>.mp hx)
        have hcon' : con ∈ xs := by
          rcases List.mem_cons.mp hcon with h | h
          · exact absurd (h ▸ ceq_refl con) (h ▸ hx)
          · exact h
        obtain ⟨ih1, ih2, ih3, ih4⟩ := ih hcon' hpxs hexs
        rw [List.eraseP_cons_of_neg (p := fun y => ceq y con) hx]
        have hsubp : ((xs.eraseP (fun y => ceq y con)).map (fun y => y.phone)) ⊆
            xs.map (fun y => y.phone) :=
          ((List.eraseP_sublist xs).map (fun y => y.phone)).subset
        have hsube : ((xs.eraseP (fun y => ceq y con)).map (fun y => y.email)) ⊆
            xs.map (fun y => y.email) :=
          ((List.eraseP_sublist xs).map (fun y => y.email)).subset
        refine ⟨?_, ?_, ?_, ?_⟩
        · simp only [List.map_cons, List.toFinset_cons, ih1]
          rw [Finset.erase_insert_of_ne hpne]
        · simp only [List.map_cons, List.toFinset_cons, ih2]
          rw [Finset.erase_insert_of_ne hene]
        · exact List.nodup_cons.mpr ⟨fun hm => hpx (hsubp hm), ih3⟩
        · exact List.nodup_cons.mpr ⟨fun hm => hex (hsube hm), ih4⟩

theorem init_ok_elim (fs : FS) (cs : List Contact) (d : String)
    (m : ContactManager) (h : ContactManager.init fs cs d = .ok m) :
    m.contacts = cs ∧ m.store_path = pathJoin d "contacts.json" ∧
    m.phone_set = (cs.map (fun x => x.phone)).toFinset ∧
    m.email_set = (cs.map (fun x => x.email)).toFinset ∧
    cs.length = (cs.map (fun x => x.phone)).toFinset.card ∧
    cs.length = (cs.map (fun x => x.email)).toFinset.card ∧
    fs.pexists d = true ∧ fs.isDir d = true := by
  simp only [ContactManager.init] at h
  split_ifs at h with h1 h2 h3 h4
  all_goals cases h
  refine ⟨rfl, rfl, rfl, rfl, not_not.mp h1, not_not.mp h2, ?_, ?_⟩
  · cases hb : fs.pexists d
    · exact absurd hb h3
    · rfl
  · cases hb : fs.isDir d
    · exact absurd hb h4
    · rfl

theorem init_establishes_inv (fs : FS) (cs : List Contact) (d : String)
    (m : ContactManager) (h : ContactManager.init fs cs d = .ok m) :
    MgrInv m := by
  obtain ⟨hc, _, hp, he, hlp, hle, _, _⟩ := init_ok_elim fs cs d m h
  refine ⟨by rw [hc, hp], by rw [hc, he], ?_, ?_⟩
  · rw [hc]
    exact (toFinset_card_eq_length_iff (cs.map (fun x => x.phone))).mp
      (hlp.symm.trans (cs.length_map (fun x => x.phone)).symm)
  · rw [hc]
    exact (toFinset_card_eq_length_iff (cs.map (fun x => x.email))).mp
      (hle.symm.trans (cs.length_map (fun x => x.email)).symm)

theorem add_preserves_inv (m : ContactManager) (c : Contact)
    (hInv : MgrInv m) : MgrInv (m.add_contact c).1 := by
  obtain ⟨hp, he, hnp, hne⟩ := hInv
  unfold ContactManager.add_contact
  split_ifs with h1 h2
  · exact ⟨hp, he, hnp, hne⟩
  · exact ⟨hp, he, hnp, hne⟩
  · have hcp : c.phone ∉ m.contacts.map (fun x => x.phone) := by
      rw [← List.mem_toFinset, hp]; exact h1
    have hce : c.email ∉ m.contacts.map (fun x => x.email) := by
      rw [← List.mem_toFinset, he]; exact h2
    refine ⟨?_, ?_, ?_, ?_⟩
    · simp only [List.map_append, List.toFinset_append, List.map_cons,
        List.map_nil, List.toFinset_cons, List.toFinset_nil]
      rw [← hp, Finset.union_comm]
      simp [Finset.insert_eq]
    · simp only [List.map_append, List.toFinset_append, List.map_cons,
        List.map_nil, List.toFinset_cons, List.toFinset_nil]
      rw [← he, Finset.union_comm]
      simp [Finset.insert_eq]
    · simp only [List.map_append, List.map_cons, List.map_nil]
      exact List.Nodup.append hnp (List.nodup_singleton c.phone)
        (by simpa [List.disjoint_singleton] using hcp)
    · simp only [List.map_append, List.map_cons, List.map_nil]
      exact List.Nodup.append hne (List.nodup_singleton c.email)
        (by simpa [List.disjoint_singleton] using hce)

theorem find_contact_phone_eq (m : ContactManager) (p : String) :
    m.find_contact (some p) none =
      if p = "" then
        .error (.valueError "Provide at least a phone number or an email.")
      else if p ∈ m.phone_set then
        match m.contacts.find? (fun x => x.phone == p) with
        | some c => .ok (some c)
        | none => .error .stopIteration
      else .ok none := by
  by_cases hp : p = ""
  · subst hp; simp [ContactManager.find_contact, truthy]
  · simp [ContactManager.find_contact, truthy, hp]

theorem find_contact_email_eq (m : ContactManager) (e : String) :
    m.find_contact none (some e) =
      if e = "" then
        .error (.valueError "Provide at least a phone number or an email.")
      else if e ∈ m.email_set then
        match m.contacts.find? (fun x => x.email == e) with
        | some c => .ok (some c)
        | none => .error .stopIteration
      else .ok none := by
  by_cases he : e = ""
  · subst he; simp [ContactManager.find_contact, truthy]
  · simp [ContactManager.find_contact, truthy, he]

theorem find_contact_none_none (m : ContactManager) :
    m.find_contact none none =
      .error (.valueError "Provide at least a phone number or an email.") := by
  simp [ContactManager.find_contact, truthy]

theorem find_contact_phone_ok (m : ContactManager) (p : String) (c : Contact)
    (h : m.find_contact (some p) none = .ok (some c)) :
    c ∈ m.contacts ∧ c.phone = p := by
  rw [find_contact_phone_eq] at h
  by_cases h1 : p = ""
  · rw [if_pos h1] at h; cases h
  · rw [if_neg h1] at h
    by_cases h2 : p ∈ m.phone_set
    · rw [if_pos h2] at h
      rcases hf : m.contacts.find? (fun x => x.phone == p) with _ | c2 <;>
        rw [hf] at h
      · cases h
      · cases h
        have hpc := List.find?_some hf
        exact ⟨List.mem_of_find?_eq_some hf, by simpa using hpc⟩
    · rw [if_neg h2] at h; cases h

theorem find_contact_email_opt_ok (m : ContactManager) (em : Option String)
    (c : Contact) (h : m.find_contact none em = .ok (some c)) :
    c ∈ m.contacts := by
  cases em with
  | none => rw [find_contact_none_none] at h; cases h
  | some e =>
      rw [find_contact_email_eq] at h
      by_cases h1 : e = ""
      · rw [if_pos h1] at h; cases h
      · rw [if_neg h1] at h
        by_cases h2 : e ∈ m.email_set
        · rw [if_pos h2] at h
          rcases hf : m.contacts.find? (fun x => x.email == e) with _ | c2 <;>
            rw [hf] at h
          · cases h
          · cases h
            exact List.mem_of_find?_eq_some hf
        · rw [if_neg h2] at h; cases h

theorem removeContactPriv_inv (m : ContactManager) (con : Contact)
    (hInv : MgrInv m) (hmem : con ∈ m.contacts) :
    MgrInv (m.removeContactPriv con).1 ∧ (m.removeContactPriv con).2 = none := by
  obtain ⟨hp, he, hnp, hne⟩ := hInv
  have hpm : con.phone ∈ m.phone_set := by
    rw [← hp, List.mem_toFinset]
    exact List.mem_map_of_mem (fun x => x.phone) hmem
  have hem : con.email ∈ m.email_set := by
    rw [← he, List.mem_toFinset]
    exact List.mem_map_of_mem (fun x => x.email) hmem
  have hany : m.contacts.any (fun x => ceq x con) = true :=
    List.any_eq_true.mpr ⟨con, hmem, ceq_refl con⟩
  obtain ⟨e1, e2, e3, e4⟩ := eraseP_ceq_spec m.contacts con hmem hnp hne
  unfold ContactManager.removeContactPriv
  rw [if_pos hpm, if_pos hem, if_pos hany]
  exact ⟨⟨by rw [e1, hp], by rw [e2, he], e3, e4⟩, rfl⟩

theorem remove_preserves_inv (m : ContactManager) (ph em : Option String)
    (hInv : MgrInv m) : MgrInv (m.remove_contact ph em).1 := by
  unfold ContactManager.remove_contact
  split_ifs with h1
  · exact hInv
  · cases ph with
    | some p =>
        rcases hf : m.find_contact (some p) none with e | oc
        · simp only [hf]; exact hInv
        · cases oc with
          | some c =>
              simp only [hf]
              exact (removeContactPriv_inv m c hInv
                (find_contact_phone_ok m p c hf).1).1
          | none =>
              simp only [hf]
              rcases hf2 : m.find_contact none em with e2 | oc2
              · simp only [hf2]; exact hInv
              · cases oc2 with
                | some c2 =>
                    simp only [hf2]
                    exact (removeContactPriv_inv m c2 hInv
                      (find_contact_email_opt_ok m em c2 hf2)).1
                | none => simp only [hf2]; exact hInv
    | none =>
        rcases hf2 : m.find_contact none em with e2 | oc2
        · simp only [hf2]; exact hInv
        · cases oc2 with
          | some c2 =>
              simp only [hf2]
              exact (removeContactPriv_inv m c2 hInv
                (find_contact_email_opt_ok m em c2 hf2)).1
          | none => simp only [hf2]; exact hInv

theorem editStep_preserves (m : ContactManager) (idx : Nat) (a v : String)
    (hidx : idx < m.contacts.length) (hse : MgrSetsEq m)
    (hem : a = "email" → (m.contacts.map (fun x => x.email)).Nodup)
    (hph : a = "phone" → (m.contacts.map (fun x => x.phone)).Nodup) :
    (m.editStep idx a v).2.2 = none ∧
    MgrSetsEq (m.editStep idx a v).1 ∧
    (m.editStep idx a v).1.contacts.length = m.contacts.length ∧
    (a ≠ "email" →
      (m.editStep idx a v).1.contacts.map (fun x => x.email) =
        m.contacts.map (fun x => x.email)) ∧
    (a ≠ "phone" →
      (m.editStep idx a v).1.contacts.map (fun x => x.phone) =
        m.contacts.map (fun x => x.phone)) := by
  obtain ⟨hsp, hsee⟩ := hse
  have hc : m.contacts[idx]? = some m.contacts[idx] :=
    List.getElem?_eq_getElem hidx
  have hmemc : m.contacts[idx] ∈ m.contacts := List.getElem_mem hidx
  have hpmem : (m.contacts[idx]).phone ∈ m.phone_set := by
    rw [← hsp, List.mem_toFinset]
    exact List.mem_map_of_mem (fun x => x.phone) hmemc
  have hemem : (m.contacts[idx]).email ∈ m.email_set := by
    rw [← hsee, List.mem_toFinset]
    exact List.mem_map_of_mem (fun x => x.email) hmemc
  have hmlen : idx < (m.contacts.map (fun x => x.email)).length := by
    simpa using hidx
  have hmlenp : idx < (m.contacts.map (fun x => x.phone)).length := by
    simpa using hidx
  have hupd : ∀ cNew : Contact, ∀ f : Contact → String,
      f cNew = f m.contacts[idx] →
      (m.contacts.set idx cNew).map f = m.contacts.map f :=
    fun cNew f hf => map_set_unchanged m.contacts idx cNew f hidx hf
  simp only [ContactManager.editStep, hc]
  rw [if_pos hemem, if_pos hpmem]
  split_ifs with ha1 ha2 ha3 ha4 ha5
  · refine ⟨rfl, ⟨?_, ?_⟩, m.contacts.length_set idx _,
      fun _ => ?_, fun _ => ?_⟩
    · exact (congrArg List.toFinset
        (hupd { m.contacts[idx] with first_name := v }
          (fun x => x.phone) rfl)).trans hsp
    · exact (congrArg List.toFinset
        (hupd { m.contacts[idx] with first_name := v }
          (fun x => x.email) rfl)).trans hsee
    · exact hupd { m.contacts[idx] with first_name := v }
        (fun x => x.email) rfl
    · exact hupd { m.contacts[idx] with first_name := v }
        (fun x => x.phone) rfl
  · refine ⟨rfl, ⟨?_, ?_⟩, m.contacts.length_set idx _,
      fun _ => ?_, fun _ => ?_⟩
    · exact (congrArg List.toFinset
        (hupd { m.contacts[idx] with last_name := v }
          (fun x => x.phone) rfl)).trans hsp
    · exact (congrArg List.toFinset
        (hupd { m.contacts[idx] with last_name := v }
          (fun x => x.email) rfl)).trans hsee
    · exact hupd { m.contacts[idx] with last_name := v }
        (fun x => x.email) rfl
    · exact hupd { m.contacts[idx] with last_name := v }
        (fun x => x.phone) rfl
  · refine ⟨rfl, ⟨?_, ?_⟩, m.contacts.length_set idx _,
      fun hne => absurd ha3 hne, fun _ => ?_⟩
    · exact (congrArg List.toFinset
        (hupd { m.contacts[idx] with email := v }
          (fun x => x.phone) rfl)).trans hsp
    · show (List.map (fun x => x.email)
          (m.contacts.set idx { m.contacts[idx] with email := v })).toFinset =
        insert v (m.email_set.erase (m.contacts[idx]).email)
      rw [List.map_set, toFinset_set_of_nodup _ idx _ (hem ha3) hmlen,
        List.getElem_map, hsee]
    · exact hupd { m.contacts[idx] with email := v }
        (fun x => x.phone) rfl
  · refine ⟨rfl, ⟨?_, ?_⟩, m.contacts.length_set idx _,
      fun _ => ?_, fun hne => absurd ha4 hne⟩
    · show (List.map (fun x => x.phone)
          (m.contacts.set idx { m.contacts[idx] with phone := v })).toFinset =
        insert v (m.phone_set.erase (m.contacts[idx]).phone)
      rw [List.map_set, toFinset_set_of_nodup _ idx _ (hph ha4) hmlenp,
        List.getElem_map, hsp]
    · exact (congrArg List.toFinset
        (hupd { m.contacts[idx] with phone := v }
          (fun x => x.email) rfl)).trans hsee
    · exact hupd { m.contacts[idx] with phone := v }
        (fun x => x.email) rfl
  · refine ⟨rfl, ⟨?_, ?_⟩, m.contacts.length_set idx _,
      fun _ => ?_, fun _ => ?_⟩
    · exact (congrArg List.toFinset
        (hupd { m.contacts[idx] with address := some v }
          (fun x => x.phone) rfl)).trans hsp
    · exact (congrArg List.toFinset
        (hupd { m.contacts[idx] with address := some v }
          (fun x => x.email) rfl)).trans hsee
    · exact hupd { m.contacts[idx] with address := some v }
        (fun x => x.email) rfl
    · exact hupd { m.contacts[idx] with address := some v }
        (fun x => x.phone) rfl
  · exact ⟨rfl, ⟨hsp, hsee⟩, rfl, fun _ => rfl, fun _ => rfl⟩

theorem editLoop_cons_ok (m m1 : ContactManager) (idx : Nat) (a v : String)
    (w : Option String) (rest : List (String × String))
    (h : m.editStep idx a v = (m1, w, none)) :
    m.editLoop idx ((a, v) :: rest) =
      ((m1.editLoop idx rest).1,
       w.toList ++ (m1.editLoop idx rest).2.1,
       (m1.editLoop idx rest).2.2) := by
  have heq : m.editLoop idx ((a, v) :: rest) =
      match m.editStep idx a v with
      | (m1, w, none) =>
          match m1.editLoop idx rest with
          | (m2, ws, err) => (m2, w.toList ++ ws, err)
      | (m1, w, some e) => (m1, w.toList, some e) := rfl
  rw [heq, h]

theorem editLoop_preserves (ups : List (String × String))
    (m : ContactManager) (idx : Nat) (hidx : idx < m.contacts.length)
    (hse : MgrSetsEq m) (hkeys : (ups.map Prod.fst).Nodup)
    (hem : "email" ∈ ups.map Prod.fst →
      (m.contacts.map (fun x => x.email)).Nodup)
    (hph : "phone" ∈ ups.map Prod.fst →
      (m.contacts.map (fun x => x.phone)).Nodup) :
    (m.editLoop idx ups).2.2 = none ∧ MgrSetsEq (m.editLoop idx ups).1 := by
  induction ups generalizing m with
  | nil => exact ⟨rfl, hse⟩
  | cons uv rest ih =>
      obtain ⟨a, v⟩ := uv
      simp only [List.map_cons, List.nodup_cons] at hkeys
      obtain ⟨hka, hkrest⟩ := hkeys
      obtain ⟨hsE, hsS, hsL, hsEm, hsPh⟩ := editStep_preserves m idx a v hidx hse
        (fun h => hem (by rw [h]; exact List.mem_cons_self _ _))
        (fun h => hph (by rw [h]; exact List.mem_cons_self _ _))
      rcases hstepeq : m.editStep idx a v with ⟨m1, w, e⟩
      rw [hstepeq] at hsE hsS hsL hsEm hsPh
      cases hsE
      rw [editLoop_cons_ok m m1 idx a v w rest hstepeq]
      have hrec := ih m1 (by rw [hsL]; exact hidx) hsS hkrest
        (fun h => by
          have hne : a ≠ "email" := fun heq => hka (heq ▸ h)
          rw [hsEm hne]
          exact hem (List.mem_cons_of_mem _ h))
        (fun h => by
          have hne : a ≠ "phone" := fun heq => hka (heq ▸ h)
          rw [hsPh hne]
          exact hph (List.mem_cons_of_mem _ h))
      exact ⟨hrec.1, hrec.2⟩

theorem edit_preserves_setsEq (m : ContactManager) (pid : String)
    (ups : List (String × String)) (hInv : MgrInv m)
    (hkeys : (ups.map Prod.fst).Nodup) :
    MgrSetsEq (m.edit_contact pid ups).1 := by
  obtain ⟨hsp, hsee, hnp, hne⟩ := hInv
  unfold ContactManager.edit_contact
  rcases hf : m.find_contact (some pid) none with e | oc
  · simp only [hf]
    exact ⟨hsp, hsee⟩
  · cases oc with
    | none =>
        simp only [hf]
        exact ⟨hsp, hsee⟩
    | some c =>
        simp only [hf]
        obtain ⟨hmem, hcp⟩ := find_contact_phone_ok m pid c hf
        have hidx : m.contacts.findIdx (fun x => x.phone == pid) <
            m.contacts.length :=
          List.findIdx_lt_length_of_exists ⟨c, hmem, by simp [hcp]⟩
        exact (editLoop_preserves ups m _ hidx ⟨hsp, hsee⟩ hkeys
          (fun _ => hne) (fun _ => hnp)).2

/-- C2 (amended): construction establishes the full indexing invariant
(index sets match, no two contacts share a phone or an email), and
`add_contact`, `find_contact` (stateless) and `remove_contact` preserve it;
`edit_contact` (with the distinct update keys a Python `**kwargs` dict
guarantees) preserves the two index-set equalities, but — as the
counterexample shows — not the no-two-share consequence. -/
theorem claim_C2_amended_invariant :
    (∀ (fs : FS) (cs : List Contact) (d : String) (m : ContactManager),
      ContactManager.init fs cs d = .ok m → MgrInv m) ∧
    (∀ (m : ContactManager) (c : Contact),
      MgrInv m → MgrInv (m.add_contact c).1) ∧
    (∀ (m : ContactManager) (ph em : Option String),
      MgrInv m → MgrInv (m.remove_contact ph em).1) ∧
    (∀ (m : ContactManager) (pid : String) (ups : List (String × String)),
      MgrInv m → (ups.map Prod.fst).Nodup →
      MgrSetsEq (m.edit_contact pid ups).1) :=
  ⟨init_establishes_inv, add_preserves_inv, remove_preserves_inv,
   edit_preserves_setsEq⟩

/-- Witness for C2: the amended invariant theorem applied at a concrete
manager —
construction establishes the invariant, and the colliding edit still
leaves the index sets equal to the stored phones and emails. -/
theorem claim_C2_witness :
    MgrInv mJA ∧
    MgrSetsEq (mJA.edit_contact "111111111" [("email", "ann@y.com")]).1 :=
  ⟨claim_C2_amended_invariant.1 allFS [jake, ann] "store" mJA (by decide),
   claim_C2_amended_invariant.2.2.2 mJA "111111111" [("email", "ann@y.com")]
     (claim_C2_amended_invariant.1 allFS [jake, ann] "store" mJA (by decide))
     (by decide)⟩

/-- Counterexample to C2 as stated: from the validly constructed
two-contact collection, the public operation
`edit_contact("111111111", email="ann@y.com")` raises nothing, yet
afterwards two stored contacts share the email `"ann@y.com"` — the
"no two contacts share an email" part of the invariant is violated. -/
theorem claim_C2_counterexample :
    ContactManager.init allFS [jake, ann] "store" = .ok mJA ∧
    (mJA.edit_contact "111111111" [("email", "ann@y.com")]).2.2 = none ∧
    ¬ (((mJA.edit_contact "111111111" [("email", "ann@y.com")]).1.contacts.map
        (fun x => x.email)).Nodup) :=
  ⟨by decide, by decide, by decide⟩

theorem takeWhile_append_all (p : Char → Bool) (A X : List Char)
    (hA : A.all p = true) :
    (A ++ X).takeWhile p = A ++ X.takeWhile p := by
  induction A with
  | nil => rfl
  | cons a A ih =>
      simp only [List.all_cons, Bool.and_eq_true] at hA
      simp [List.cons_append, List.takeWhile_cons, hA.1, ih hA.2]

theorem takeWhile_append_stop (p : Char → Bool) (A : List Char) (a : Char)
    (B : List Char) (hA : A.all p = true) (ha : p a = false) :
    (A ++ a :: B).takeWhile p = A := by
  rw [takeWhile_append_all p A (a :: B) hA]
  simp [List.takeWhile_cons, ha]

theorem string_mk_data (s : String) : String.mk s.data = s := rfl

theorem pathSuffix_cj (Z : List Char) :
    pathSuffix (String.mk (Z ++ "contacts.json".data)) = ".json" := by
  have hrev : (Z ++ "contacts.json".data).reverse =
      "nosj.stcatnoc".data ++ Z.reverse := by
    rw [List.reverse_append]
    rfl
  have hsplit : ("nosj.stcatnoc".data : List Char) =
      "nosj".data ++ '.' :: "stcatnoc".data := by decide
  unfold pathSuffix
  simp only [hrev]
  have hname : ("nosj.stcatnoc".data ++ Z.reverse).takeWhile
      (fun c => c ≠ '/') =
      "nosj.stcatnoc".data ++ Z.reverse.takeWhile (fun c => c ≠ '/') :=
    takeWhile_append_all _ _ _ (by decide)
  rw [hname]
  have htail : (("nosj.stcatnoc".data ++
      Z.reverse.takeWhile (fun c => c ≠ '/')).takeWhile
        (fun c => c ≠ '.')) = "nosj".data := by
    rw [hsplit, List.append_assoc]
    exact takeWhile_append_stop _ _ _ _ (by decide) (by decide)
  rw [htail]
  have hlen : ("nosj".data : List Char).length + 1 <
      ("nosj.stcatnoc".data ++
        Z.reverse.takeWhile (fun c => c ≠ '/')).length := by
    rw [List.length_append]
    have : ("nosj".data : List Char).length = 4 := by decide
    have h13 : ("nosj.stcatnoc".data : List Char).length = 13 := by decide
    omega
  rw [if_pos hlen]
  decide

theorem pathSuffix_join (d : String) :
    pathSuffix (pathJoin d "contacts.json") = ".json" := by
  unfold pathJoin
  split_ifs with h1 h2
  · decide
  · have : d ++ "contacts.json" =
        String.mk (d.data ++ "contacts.json".data) := by
      rw [← String.data_append, string_mk_data]
    rw [this]
    exact pathSuffix_cj d.data
  · have : d ++ "/" ++ "contacts.json" =
        String.mk ((d.data ++ "/".data) ++ "contacts.json".data) := by
      rw [← String.data_append, ← String.data_append, string_mk_data]
    rw [this]
    exact pathSuffix_cj (d.data ++ "/".data)

theorem mapM_from_dict_ok (l : List Contact)
    (h : ∀ c ∈ l, ValidContact c) :
    (l.map Contact.to_dict).mapM Contact.from_dict = .ok l := by
  induction l with
  | nil => rfl
  | cons c cs ih =>
      rw [List.map_cons, List.mapM_cons,
        from_dict_to_dict c (h c (List.mem_cons_self c cs)),
        ih (fun x hx => h x (List.mem_cons_of_mem c hx))]
      rfl

theorem init_ok_of (fs : FS) (cs : List Contact) (d : String)
    (hp : cs.length = (cs.map (fun x => x.phone)).toFinset.card)
    (he : cs.length = (cs.map (fun x => x.email)).toFinset.card)
    (h3 : fs.pexists d = true) (h4 : fs.isDir d = true) :
    ContactManager.init fs cs d =
      .ok ⟨cs, pathJoin d "contacts.json",
        (cs.map (fun x => x.phone)).toFinset,
        (cs.map (fun x => x.email)).toFinset⟩ := by
  unfold ContactManager.init
  rw [if_neg (not_not_intro hp), if_neg (not_not_intro he),
    if_neg (by simp [h3]), if_neg (by simp [h4])]

/-- C5: saving a validly constructed collection and loading the
written snapshot back yields a collection with the same contact list,
field for field and in the same order (the environment hypotheses say the
written file and its directory are visible to the loading file system
oracle). -/
theorem claim_C5_save_load_roundtrip (fs fs2 : FS) (cs : List Contact)
    (d : String) (m : ContactManager)
    (hmk : ContactManager.init fs cs d = .ok m)
    (hval : ∀ c ∈ cs, ValidContact c)
    (h1 : fs2.pexists m.store_path = true)
    (h2 : fs2.isFile m.store_path = true)
    (h3 : fs2.pexists (pathParent m.store_path) = true)
    (h4 : fs2.isDir (pathParent m.store_path) = true) :
    ∃ m2 : ContactManager,
      ContactManager.from_file fs2 (m.to_file).1 (m.to_file).2 = .ok m2 ∧
      m2.contacts = m.contacts := by
  obtain ⟨hc, hsp, _, _, hlp, hle, _, _⟩ := init_ok_elim fs cs d m hmk
  have hsuf : pathSuffix m.store_path = ".json" := by
    rw [hsp]; exact pathSuffix_join d
  have hff : ContactManager.from_file fs2 (m.to_file).1 (m.to_file).2 =
      ContactManager.init fs2 cs (pathParent m.store_path) := by
    show ContactManager.from_file fs2 m.store_path
      ⟨some (m.contacts.map Contact.to_dict), some m.store_path⟩ =
      ContactManager.init fs2 cs (pathParent m.store_path)
    unfold ContactManager.from_file
    rw [if_neg (by simp [h1]), if_neg (by simp [h2]),
      if_neg (not_not_intro hsuf)]
    dsimp only
    rw [hc, mapM_from_dict_ok cs hval]
    rfl
  refine ⟨⟨cs, pathJoin (pathParent m.store_path) "contacts.json",
    (cs.map (fun x => x.phone)).toFinset,
    (cs.map (fun x => x.email)).toFinset⟩, ?_, by
      show cs = m.contacts
      rw [hc]⟩
  rw [hff]
  exact init_ok_of fs2 cs (pathParent m.store_path) hlp hle h3 h4

/-- Witness for C5: the round-trip theorem at the concrete two-contact
manager on an all-true file-system oracle. -/
theorem claim_C5_witness :
    ∃ m2 : ContactManager,
      ContactManager.from_file allFS (mJA.to_file).1 (mJA.to_file).2 =
        .ok m2 ∧ m2.contacts = mJA.contacts :=
  claim_C5_save_load_roundtrip allFS allFS [jake, ann] "store" mJA
    (by decide) (by decide) (by decide) (by decide) (by decide) (by decide)
